import Mathlib

/-!
Shallow embedding of `scripts/download_records.py` (PyMajSoul), with proofs
about the fetch pipeline, the memoization ledger, the pagination loop and
the nested-envelope decoder.

External collaborators of the script (protobuf parsing, base64, HTTP
transfers, JSON serialization, the RPC session) are modelled as components
of an `Env` record of abstract functions; everything the script itself does
(control flow, path construction, skip conditions, the two decode loops, the
pagination loop, the memoization logic) is translated directly from the
source, statement by statement.
-/

set_option autoImplicit false

namespace PyMajSoul

/-- Raw bytes, as produced by protobuf serialization, base64 decoding or an
HTTP body read. -/
abbrev Blob := List Nat

/-- The Python exceptions the relevant part of the script can raise.
`fileNotFound` is `open()` on a missing path (lines 175, 204);
`keyError` is `data['data']` with the key absent (line 209);
`assertionError` is the failed
`assert wrapper.name == '.lq.GameDetailRecords'` (line 213), which the spec
calls `EnvelopeMismatch`;
`attributeError name` is `getattr(pb, name)` failing (line 225), which the
spec calls `UnknownMessageType`. -/
inductive PyErr where
  | fileNotFound
  | keyError
  | assertionError
  | attributeError (name : String)
  deriving DecidableEq, Repr

instance {α β : Type} [DecidableEq α] [DecidableEq β] :
    DecidableEq (Except α β) := fun a b =>
  match a, b with
  | .ok x, .ok y =>
    if h : x = y then .isTrue (by rw [h]) else .isFalse (by simp [h])
  | .error x, .error y =>
    if h : x = y then .isTrue (by rw [h]) else .isFalse (by simp [h])
  | .ok _, .error _ => .isFalse (by simp)
  | .error _, .ok _ => .isFalse (by simp)

/-- An envelope: `pb.Wrapper` with fields `name` (type-name string) and
`data` (opaque payload). -/
structure Wrapper where
  name : String
  data : Blob
  deriving DecidableEq, Repr

/-- One decoded entry of the `details` sequence: the generic field-mapping
produced by `MessageToDict` (kept opaque as a string) plus the `@type`
marker the script attaches (line 229). -/
structure Entry where
  typeTag : String
  fields : String
  deriving DecidableEq, Repr

/-- The projection of a stored record document onto the fields the script
reads and writes: `data`, `dataUrl` and `details`. An `Option` field is
`some` exactly when the JSON key is present. -/
structure RecordDoc where
  data : Option String
  dataUrl : Option String
  details : Option (List Entry)
  deriving DecidableEq, Repr

/-- The filesystem visible to the script: full path to file content. -/
abbrev Disk := List (String × String)

/-- Overwrite (or create) the file at path `k` with content `v`, as
`open(path, "w")` followed by a full write does. -/
def diskWrite : Disk → String → String → Disk
  | [], k, v => [(k, v)]
  | (k0, v0) :: rest, k, v =>
    if k0 = k then (k, v) :: rest else (k0, v0) :: diskWrite rest k v

/-- Whether the string `p` is a leading piece of the string `s` (computed
on the underlying character lists so that it evaluates by `decide`). -/
def strStartsWith (p s : String) : Bool :=
  p.data.isPrefixOf s.data

/-- Remove the first `n` characters of `s`. -/
def strDropN (s : String) (n : Nat) : String :=
  ⟨s.data.drop n⟩

/-- `os.listdir(dir)`: the file names (paths with the directory stripped)
of the entries stored under `dir`. -/
def listdir (dir : String) (disk : Disk) : List String :=
  disk.filterMap (fun e =>
    if strStartsWith (dir ++ "/") e.1 then
      some (strDropN e.1 (dir ++ "/").length)
    else none)

/-- `os.path.join(jsondir, "{}.json".format(r))` (lines 135, 168, 197). -/
def jsonPath (jsondir r : String) : String :=
  jsondir ++ "/" ++ r ++ ".json"

/-- Python `str.replace(old, new)` on character lists: every non-overlapping
occurrence of `old`, scanning left to right, is replaced by `new`. The
`fuel` argument (instantiated with the input length, which bounds the
number of steps) makes the recursion structural. -/
def replaceAux (old new : List Char) : Nat → List Char → List Char
  | _, [] => []
  | 0, l => l
  | fuel + 1, c :: cs =>
    if old.isPrefixOf (c :: cs) then
      new ++ replaceAux old new fuel (List.drop (old.length - 1) cs)
    else
      c :: replaceAux old new fuel cs

/-- Python `s.replace(old, new)` — used by the script as
`wrapper.name.replace(".lq.", "")` (line 224). Note this removes every
occurrence of `old`, not only a leading one. -/
def pyReplace (s old new : String) : String :=
  ⟨replaceAux old.data new.data s.data.length s.data⟩

/-- The external collaborators, as abstract total functions:
`parseJson` is `json.load`, `dumpJson` is `json.dump` with 2-space indent,
`httpGet` is `session.get(url)` + `res.read()`, `b64encode`/`b64decode` are
the base64 codec, `parseWrapper` is `pb.Wrapper().ParseFromString`,
`parseContainer` is `pb.GameDetailRecords().ParseFromString` followed by
taking the repeated `records` field, `catalog name` is
`getattr(pb, name)` (`none` when the attribute is missing) composed with
`ParseFromString` and `MessageToDict`, and `fetchDump r` is
`MessageToJson(await lobby.fetchGameRecord(req))` for `req.game_uuid = r`. -/
structure Env where
  parseJson : String → RecordDoc
  dumpJson : RecordDoc → String
  httpGet : String → Blob
  b64encode : Blob → String
  b64decode : String → Blob
  parseWrapper : Blob → Wrapper
  parseContainer : Blob → List Blob
  catalog : String → Option (Blob → String)
  fetchDump : String → String

/-- `memoized is not None and r in memoized` (lines 171, 200). -/
def memoMember (memoized : Option (List String)) (r : String) : Bool :=
  match memoized with
  | none => false
  | some m => m.contains r

/-- The inner decode loop (lines 220-230): for each sub-blob, parse it as a
`Wrapper`, strip `".lq."` from its name via `replace`, resolve the name in
the type catalog (`getattr(pb, name)` — an `AttributeError` propagates when
the name is unknown), deserialize, convert to a field-mapping and attach the
`@type` marker. Entries are appended in sub-blob order. -/
def decodeEntries (env : Env) : List Blob → Except PyErr (List Entry)
  | [] => .ok []
  | b :: bs =>
    let w := env.parseWrapper b
    let name := pyReplace w.name ".lq." ""
    match env.catalog name with
    | none => .error (.attributeError name)
    | some deser =>
      match decodeEntries env bs with
      | .error e => .error e
      | .ok es => .ok (⟨name, deser w.data⟩ :: es)

/-- One iteration of the detail-fetch loop of `decode_records`
(lines 166-191) for record id `r`. Returns the disk after the iteration and
`some e` when the iteration raised `e` (every raise in the source happens
before any write of that iteration, so the disk is returned unchanged in
that case). -/
def detailFetchStep (env : Env) (memoized : Option (List String))
    (jsondir : String) (disk : Disk) (r : String) : Disk × Option PyErr :=
  let path := jsonPath jsondir r
  if (List.lookup path disk).isNone ∧ memoMember memoized r then
    (disk, none)
  else
    match List.lookup path disk with
    | none => (disk, some .fileNotFound)
    | some content =>
      let doc := env.parseJson content
      if doc.data.isSome then (disk, none)
      else
        match doc.dataUrl with
        | some url =>
          let details := env.httpGet url
          let doc2 : RecordDoc :=
            { doc with data := some (env.b64encode details) }
          (diskWrite disk path (env.dumpJson doc2), none)
        | none => (disk, none)

/-- One iteration of the decode loop of `decode_records` (lines 195-235)
for record id `r`: skip when memoized-and-missing, open and parse the
document (`KeyError` when `data` is absent), base64-decode, check the outer
envelope name against `.lq.GameDetailRecords`, unwrap the container, decode
every entry, store the result under `details` and persist. -/
def decodeStep (env : Env) (memoized : Option (List String))
    (jsondir : String) (disk : Disk) (r : String) : Disk × Option PyErr :=
  let path := jsonPath jsondir r
  if (List.lookup path disk).isNone ∧ memoMember memoized r then
    (disk, none)
  else
    match List.lookup path disk with
    | none => (disk, some .fileNotFound)
    | some content =>
      let doc := env.parseJson content
      if doc.details.isSome then (disk, none)
      else
        match doc.data with
        | none => (disk, some .keyError)
        | some dstr =>
          let blob := env.b64decode dstr
          let w := env.parseWrapper blob
          if w.name = ".lq.GameDetailRecords" then
            match decodeEntries env (env.parseContainer w.data) with
            | .error e => (disk, some e)
            | .ok results =>
              let doc2 : RecordDoc := { doc with details := some results }
              (diskWrite disk path (env.dumpJson doc2), none)
          else (disk, some .assertionError)

/-- Run a per-record loop body over a list of record ids; an uncaught
exception aborts the loop, leaving the disk as it was at the raise. -/
def runPass (step : Disk → String → Disk × Option PyErr) :
    Disk → List String → Disk × Option PyErr
  | disk, [] => (disk, none)
  | disk, r :: rs =>
    match step disk r with
    | (d, some e) => (d, some e)
    | (d, none) => runPass step d rs

/-- `decode_records(records)` (lines 161-235): the detail-fetch loop over
all of `records`, then the decode loop over all of `records`. -/
def decode_records (env : Env) (memoized : Option (List String))
    (jsondir : String) (disk : Disk) (records : List String) :
    Disk × Option PyErr :=
  match runPass (detailFetchStep env memoized jsondir) disk records with
  | (d, some e) => (d, some e)
  | (d, none) => runPass (decodeStep env memoized jsondir) d records

/-- The `--no-new-records` module entry (lines 266-267):
`decode_records(os.listdir(args.jsondir))`, with the module-level global
`memoized` still `None` (line 239) because neither `should_skip` nor
`maybe_memoize` runs in this mode. -/
def runNoNewRecords (env : Env) (jsondir : String) (disk : Disk) :
    Disk × Option PyErr :=
  decode_records env none jsondir disk (listdir jsondir disk)

/-! ## The primary-fetch loop of `main` and the memoization ledger -/

/-- The configuration the fetch loop reads from `args`: the json output
directory, whether `--memoize` was given, and — when the memoize file
exists — the list of its lines as `f.readlines()` would return them
(`none` models a configured path whose file does not exist yet). -/
structure FetchCfg where
  jsondir : String
  memoConfigured : Bool
  memoFileLines : Option (List String)

/-- The mutable state of the fetch loop of `main` (lines 134-154): the
disk, the module-level global `memoized` (line 239), the accumulated
appends to the memoize file, and the list of ids for which
`lobby.fetchGameRecord` was actually called, in call order. -/
structure FetchSt where
  disk : Disk
  memoized : Option (List String)
  appends : List String
  fetched : List String

/-- Python `str.strip()` with no argument: remove leading and trailing
whitespace (computed on character lists so that it evaluates by `decide`). -/
def pyStrip (s : String) : String :=
  ⟨(((s.data.dropWhile Char.isWhitespace).reverse.dropWhile
      Char.isWhitespace).reverse)⟩

/-- Loading the ledger (lines 245-249):
`set(map(lambda l: l.strip(), f.readlines()))` when the file exists, the
empty set otherwise. -/
def loadMemo (cfg : FetchCfg) : List String :=
  match cfg.memoFileLines with
  | some ls => ls.map pyStrip
  | none => []

/-- `should_skip(r, jsonfile_path)` (lines 241-253), returning the skip
decision together with the updated global `memoized` (the lazy load is its
only side effect). -/
def should_skip (cfg : FetchCfg) (memoized : Option (List String))
    (disk : Disk) (r path : String) : Bool × Option (List String) :=
  if cfg.memoConfigured then
    let m := match memoized with
      | none => loadMemo cfg
      | some m => m
    if r ∈ m then (true, some m)
    else ((List.lookup path disk).isSome, some m)
  else ((List.lookup path disk).isSome, memoized)

/-- `maybe_memoize(r)` (lines 256-263): when `--memoize` is configured, add
`r` to the in-memory set and append a line to the ledger file. -/
def maybe_memoize (cfg : FetchCfg) (st : FetchSt) (r : String) : FetchSt :=
  if cfg.memoConfigured then
    let m := match st.memoized with
      | none => []
      | some m => m
    let m2 := if r ∈ m then m else m ++ [r]
    { st with memoized := some m2, appends := st.appends ++ [r] }
  else st

/-- One iteration of the per-record loop of `main` (lines 134-154) for
record id `r`: consult `should_skip`; when not skipped, call
`fetchGameRecord`, write the document, and `maybe_memoize`. -/
def fetchStep (env : Env) (cfg : FetchCfg) (st : FetchSt) (r : String) :
    FetchSt :=
  let path := jsonPath cfg.jsondir r
  let sk := should_skip cfg st.memoized st.disk r path
  let st1 : FetchSt := { st with memoized := sk.2 }
  if sk.1 then st1
  else
    let st2 : FetchSt :=
      { st1 with
        fetched := st1.fetched ++ [r],
        disk := diskWrite st1.disk path (env.fetchDump r) }
    maybe_memoize cfg st2 r

/-- The whole per-record loop of `main` over the listed record ids. -/
def fetchLoop (env : Env) (cfg : FetchCfg) : FetchSt → List String → FetchSt
  | st, [] => st
  | st, r :: rs => fetchLoop env cfg (fetchStep env cfg st r) rs

/-! ## The pagination loop of `main` -/

/-- The record-listing loop of `main` (lines 118-130), with
`L start count` standing for
`[r.uuid for r in (await lobby.fetchGameRecordList(req)).record_list]` at
`req.start = start`, `req.count = count`. Returns the collected ids and the
number of pages requested; `fuel` bounds the unbounded `while True` (the
loop body runs at most `fuel` times). -/
def fetchRecordList (L : Nat → Nat → List String) (step : Nat) :
    Nat → Nat → List String × Nat
  | 0, _ => ([], 0)
  | fuel + 1, current =>
    let page := L current step
    if page.length < step then (page, 1)
    else
      let rest := fetchRecordList L step fuel (current + step)
      (page ++ rest.1, rest.2 + 1)

/-! ## A concrete environment for evaluating the model -/

/-- A small concrete collaborator environment used to evaluate the model on
explicit inputs. File contents are the tags `F3`, `F6`, `F7`, `F8`, `F9`;
`parseJson` maps each tag to a fixed document. -/
def cEnv : Env where
  parseJson := fun s =>
    if s = "F3" then ⟨some "d3", none, none⟩
    else if s = "F6" then ⟨some "d6", none, none⟩
    else if s = "F7" then ⟨some "d7", none, some []⟩
    else if s = "F8" then ⟨none, none, none⟩
    else if s = "F9" then ⟨none, some "u9", none⟩
    else ⟨none, none, none⟩
  dumpJson := fun d =>
    "W" ++ (match d.data with | some s => s | none => "") ++
      (match d.details with | some es => toString es.length | none => "")
  httpGet := fun u => if u = "u9" then [9, 9] else []
  b64encode := fun bs => "E" ++ toString bs.length
  b64decode := fun s =>
    if s = "d3" then [3] else if s = "d6" then [6]
    else if s = "dok" then [7] else []
  parseWrapper := fun b =>
    if b = [3] then ⟨".lq.GameDetailRecords", [30]⟩
    else if b = [6] then ⟨".lq.WrongType", []⟩
    else if b = [7] then ⟨".lq.GameDetailRecords", [70]⟩
    else if b = [10] then ⟨"a.lq.b", [100]⟩
    else if b = [11] then ⟨".lq.Unknown", []⟩
    else ⟨"", []⟩
  parseContainer := fun b =>
    if b = [30] then [[10], [11]]
    else if b = [70] then [[10], [10]]
    else []
  catalog := fun n => if n = "ab" then some (fun b => "M" ++ toString b.length) else none
  fetchDump := fun r => "FD" ++ r

/-- Modelled from the spec: the spec describes the `@type` tag as "the
inner envelope's type-name with the leading namespace prefix `.lq.`
stripped" — remove the prefix when the name starts with it, otherwise
leave the name unchanged. Used only for comparison against the source's
`replace`-based behaviour. -/
def stripLeadingNsSpec (p s : String) : String :=
  if strStartsWith p s then strDropN s p.length else s

/-- Decoding of a single sub-blob of the container (lines 222-229), as a
total function: `none` exactly when the stripped type-name is absent from
the catalog. -/
def decodeOneEntry (env : Env) (b : Blob) : Option Entry :=
  let w := env.parseWrapper b
  let name := pyReplace w.name ".lq." ""
  match env.catalog name with
  | none => none
  | some deser => some ⟨name, deser w.data⟩

example : pyReplace "a.lq.b" ".lq." "" = "ab" := by decide
example : pyReplace ".lq.Unknown" ".lq." "" = "Unknown" := by decide
example : decodeEntries cEnv [[10], [10]] =
    .ok [⟨"ab", "M1"⟩, ⟨"ab", "M1"⟩] := by decide
example : decodeEntries cEnv [[10], [11]] =
    .error (.attributeError "Unknown") := by decide
example : runNoNewRecords cEnv "o" [("o/abc.json", "F7")] =
    ([("o/abc.json", "F7")], some .fileNotFound) := by decide

/-! ## Theorems about the claims -/

/-- Claim C2: the `--no-new-records` entry point passes the file names
returned by `os.listdir` (e.g. `abc.json`) as record ids, so the per-record
loops append `.json` a second time and look for `o/abc.json.json`; with a
single existing document `o/abc.json`, the first pass raises
`FileNotFoundError` instead of reading and updating `o/abc.json`. This
contradicts the flag's own help text ("Decode existing records only"):
decode-only mode crashes on any existing document. -/
theorem noNewRecords_double_extension_crash :
    listdir "o" [("o/abc.json", "F7")] = ["abc.json"] ∧
    jsonPath "o" "abc.json" = "o/abc.json.json" ∧
    runNoNewRecords cEnv "o" [("o/abc.json", "F7")] =
      ([("o/abc.json", "F7")], some .fileNotFound) := by
  decide

/-- Claim C7: a record whose stored document already has both `data` and
`details` is skipped by the detail-fetch iteration (the `"data" in data`
check) and by the decode iteration (the `"details" in data` check), so
neither iteration performs any write and the disk is returned unchanged. -/
theorem decode_pass_noop_on_detailed (env : Env)
    (memoized : Option (List String)) (jsondir : String) (disk : Disk)
    (r content : String)
    (hfile : List.lookup (jsonPath jsondir r) disk = some content)
    (hdata : (env.parseJson content).data.isSome = true)
    (hdetails : (env.parseJson content).details.isSome = true) :
    detailFetchStep env memoized jsondir disk r = (disk, none) ∧
    decodeStep env memoized jsondir disk r = (disk, none) := by
  constructor
  · simp [detailFetchStep, hfile, hdata]
  · simp [decodeStep, hfile, hdetails]

/-- Witness for Claim C7 at a concrete input: document `F7` has
`data = some "d7"` and `details = some []`, and both iterations leave the
disk unchanged. -/
theorem decode_pass_noop_on_detailed_witness :
    detailFetchStep cEnv none "o" [("o/r7.json", "F7")] "r7" =
      ([("o/r7.json", "F7")], none) ∧
    decodeStep cEnv none "o" [("o/r7.json", "F7")] "r7" =
      ([("o/r7.json", "F7")], none) :=
  decode_pass_noop_on_detailed cEnv none "o" [("o/r7.json", "F7")] "r7" "F7"
    (by decide) (by decide) (by decide)

/-- Claim C6: when the outer envelope's decoded name is not
`.lq.GameDetailRecords`, the decode iteration raises the assertion at line
213 — the spec's `EnvelopeMismatch` — strictly before the write at line
233, so the iteration returns the disk unchanged: the document keeps its
bytes, its `details` key stays absent, and no partial `details` is
written. -/
theorem decode_envelope_mismatch_no_write (env : Env)
    (memoized : Option (List String)) (jsondir : String) (disk : Disk)
    (r content d : String)
    (hfile : List.lookup (jsonPath jsondir r) disk = some content)
    (hdetails : (env.parseJson content).details = none)
    (hdata : (env.parseJson content).data = some d)
    (hname : (env.parseWrapper (env.b64decode d)).name ≠
      ".lq.GameDetailRecords") :
    decodeStep env memoized jsondir disk r = (disk, some .assertionError) := by
  simp [decodeStep, hfile, hdetails, hdata, hname]

/-- Witness for Claim C6 at a concrete input: document `F6` carries
`data = "d6"` whose blob decodes to an envelope named `.lq.WrongType`. -/
theorem decode_envelope_mismatch_no_write_witness :
    decodeStep cEnv none "o" [("o/r6.json", "F6")] "r6" =
      ([("o/r6.json", "F6")], some .assertionError) :=
  decode_envelope_mismatch_no_write cEnv none "o" [("o/r6.json", "F6")]
    "r6" "F6" "d6" (by decide) (by decide) (by decide) (by decide)

/-- Claim C8 counterexample: a document with neither `data` nor `dataUrl`
(and no `details`). The detail-fetch pass skips it with a warning, but the
decode pass then evaluates `data['data']` at line 209 and raises
`KeyError`, aborting the batch — so the record does NOT continue "through
both the detail-fetch and decode passes without raising an error" as the
claim states. -/
theorem missing_fields_keyerror_cx :
    decode_records cEnv none "o" [("o/r8.json", "F8")] ["r8"] =
      ([("o/r8.json", "F8")], some .keyError) := by
  decide

/-- Claim C8 as amended: for a document with neither `data` nor `dataUrl`,
the detail-fetch iteration skips the record with a warning and performs no
write (the condition is not fatal to the detail-fetch pass, which continues
with the remaining records); but unless the document already has `details`,
the subsequent decode iteration raises `KeyError` on `data['data']`,
aborting the decode pass. -/
theorem missing_fields_warn_then_keyerror (env : Env)
    (memoized : Option (List String)) (jsondir : String) (disk : Disk)
    (r content : String)
    (hfile : List.lookup (jsonPath jsondir r) disk = some content)
    (hdoc : env.parseJson content = ⟨none, none, none⟩) :
    detailFetchStep env memoized jsondir disk r = (disk, none) ∧
    decodeStep env memoized jsondir disk r = (disk, some .keyError) := by
  constructor
  · simp [detailFetchStep, hfile, hdoc]
  · simp [decodeStep, hfile, hdoc]

/-- Witness for amended Claim C8 at a concrete input: document `F8` parses
to the empty document. -/
theorem missing_fields_warn_then_keyerror_witness :
    detailFetchStep cEnv none "o" [("o/r8.json", "F8")] "r8" =
      ([("o/r8.json", "F8")], none) ∧
    decodeStep cEnv none "o" [("o/r8.json", "F8")] "r8" =
      ([("o/r8.json", "F8")], some .keyError) :=
  missing_fields_warn_then_keyerror cEnv none "o" [("o/r8.json", "F8")]
    "r8" "F8" (by decide) (by decide)

/-- Claim C9: for a document with `dataUrl` and no `data`, the detail-fetch
iteration writes back the same document with `data` set to the base64
encoding of the bytes fetched from that URL, while `dataUrl` keeps its
original value and `details` is unchanged. -/
theorem detail_fetch_b64_keeps_dataUrl (env : Env)
    (memoized : Option (List String)) (jsondir : String) (disk : Disk)
    (r content url : String)
    (hfile : List.lookup (jsonPath jsondir r) disk = some content)
    (hdata : (env.parseJson content).data = none)
    (hurl : (env.parseJson content).dataUrl = some url) :
    detailFetchStep env memoized jsondir disk r =
      (diskWrite disk (jsonPath jsondir r)
        (env.dumpJson
          { data := some (env.b64encode (env.httpGet url)),
            dataUrl := some url,
            details := (env.parseJson content).details }), none) := by
  rcases hdocEq : env.parseJson content with ⟨dd, du, de⟩
  rw [hdocEq] at hdata hurl
  simp at hdata hurl
  simp [detailFetchStep, hfile, hdocEq, hdata, hurl]

/-- Witness for Claim C9 at a concrete input: document `F9` has
`dataUrl = "u9"` and no `data`; the fetched bytes `[9, 9]` are encoded as
`E2` and written back with `dataUrl` untouched. -/
theorem detail_fetch_b64_keeps_dataUrl_witness :
    detailFetchStep cEnv none "o" [("o/r9.json", "F9")] "r9" =
      (diskWrite [("o/r9.json", "F9")] (jsonPath "o" "r9")
        (cEnv.dumpJson
          { data := some (cEnv.b64encode (cEnv.httpGet "u9")),
            dataUrl := some "u9",
            details := (cEnv.parseJson "F9").details }), none) :=
  detail_fetch_b64_keeps_dataUrl cEnv none "o" [("o/r9.json", "F9")]
    "r9" "F9" "u9" (by decide) (by decide) (by decide)

/-- In the inner decode loop, entries before an unknown type-name decode
fine, and the first sub-blob whose stripped name is absent from the catalog
makes the whole loop fail with `AttributeError` on that name. -/
theorem decodeEntries_unknown_name_error (env : Env) (bs bs2 : List Blob)
    (b : Blob) (n : String)
    (hok : ∀ x ∈ bs,
      (env.catalog (pyReplace (env.parseWrapper x).name ".lq." "")).isSome)
    (hn : n = pyReplace (env.parseWrapper b).name ".lq." "")
    (hcat : env.catalog n = none) :
    decodeEntries env (bs ++ b :: bs2) = .error (.attributeError n) := by
  induction bs with
  | nil =>
    simp only [List.nil_append, decodeEntries]
    rw [← hn, hcat]
  | cons x xs ih =>
    have hx := hok x (by simp)
    rcases hsome : env.catalog (pyReplace (env.parseWrapper x).name ".lq." "")
      with _ | f
    · rw [hsome] at hx
      simp at hx
    · simp only [List.cons_append, decodeEntries, hsome]
      rw [List.append_eq, ih (fun y hy => hok y (by simp [hy]))]

/-- Claim C3 counterexample: a batch of two records `r3`, `r4` whose
documents both decode to a container holding a known-type sub-blob and a
sub-blob named `.lq.Unknown`. The stripped name `Unknown` is absent from
the catalog, so `getattr` raises `AttributeError`, which nothing catches:
the run aborts with the error, no best-effort entry or `details` value is
written (the disk is unchanged), and the remaining entries and the record
`r4` are never processed — contradicting the claim that a per-entry
diagnostic is surfaced and the rest of the batch is still processed. -/
theorem unknown_type_aborts_batch_cx :
    decode_records cEnv none "o"
        [("o/r3.json", "F3"), ("o/r4.json", "F3")] ["r3", "r4"] =
      ([("o/r3.json", "F3"), ("o/r4.json", "F3")],
        some (.attributeError "Unknown")) := by
  decide

/-- Claim C3 as amended: when an inner envelope's stripped type-name is
absent from the type catalog, decoding that entry raises an
attribute-lookup error (the spec's `UnknownMessageType`) that propagates
uncaught: the record's `details` are not written (the iteration returns the
disk unchanged), and the decode pass stops there, leaving all remaining
records unprocessed. -/
theorem unknown_type_aborts_batch (env : Env)
    (memoized : Option (List String)) (jsondir : String) (disk : Disk)
    (r content d n : String) (rs : List String)
    (bs bs2 : List Blob) (b : Blob)
    (hfile : List.lookup (jsonPath jsondir r) disk = some content)
    (hdetails : (env.parseJson content).details = none)
    (hdata : (env.parseJson content).data = some d)
    (hname : (env.parseWrapper (env.b64decode d)).name =
      ".lq.GameDetailRecords")
    (hcontainer : env.parseContainer
        (env.parseWrapper (env.b64decode d)).data = bs ++ b :: bs2)
    (hok : ∀ x ∈ bs,
      (env.catalog (pyReplace (env.parseWrapper x).name ".lq." "")).isSome)
    (hn : n = pyReplace (env.parseWrapper b).name ".lq." "")
    (hcat : env.catalog n = none) :
    decodeStep env memoized jsondir disk r =
      (disk, some (.attributeError n)) ∧
    runPass (decodeStep env memoized jsondir) disk (r :: rs) =
      (disk, some (.attributeError n)) := by
  have hstep : decodeStep env memoized jsondir disk r =
      (disk, some (.attributeError n)) := by
    have herr := decodeEntries_unknown_name_error env bs bs2 b n hok hn hcat
    simp [decodeStep, hfile, hdetails, hdata, hname, hcontainer, herr]
  refine ⟨hstep, ?_⟩
  simp [runPass, hstep]

/-- Witness for amended Claim C3 at a concrete input: record `r3`'s
container is `[[10], [11]]`; `[10]` decodes as known type `ab` and `[11]`
is the unknown `.lq.Unknown`, so the decode pass over `["r3", "r4"]`
aborts with `AttributeError "Unknown"` and the disk unchanged. -/
theorem unknown_type_aborts_batch_witness :
    decodeStep cEnv none "o" [("o/r3.json", "F3")] "r3" =
      ([("o/r3.json", "F3")], some (.attributeError "Unknown")) ∧
    runPass (decodeStep cEnv none "o") [("o/r3.json", "F3")] ["r3", "r4"] =
      ([("o/r3.json", "F3")], some (.attributeError "Unknown")) :=
  unknown_type_aborts_batch cEnv none "o" [("o/r3.json", "F3")]
    "r3" "F3" "d3" "Unknown" ["r4"] [[10]] [] [11]
    (by decide) (by decide) (by decide) (by decide) (by decide)
    (by decide) (by decide) rfl

/-- Claim C5 counterexample: a sub-blob whose inner envelope is named
`a.lq.b`. The name does not start with `.lq.`, so "the type-name with the
leading namespace prefix `.lq.` stripped" is `a.lq.b` itself; but the
source runs `wrapper.name.replace(".lq.", "")`, which removes the interior
occurrence too, and the entry is tagged `@type = "ab"` ≠ `a.lq.b`. -/
theorem unwrap_type_tag_cx :
    decodeEntries cEnv [[10]] = .ok [⟨"ab", "M1"⟩] ∧
    (cEnv.parseWrapper [10]).name = "a.lq.b" ∧
    stripLeadingNsSpec ".lq." "a.lq.b" = "a.lq.b" ∧
    ("ab" : String) ≠ "a.lq.b" := by
  decide

/-- Claim C5 as amended: given a container of N sub-blobs all of whose
type-names resolve in the catalog, the decoded sequence has exactly N
entries, in sub-blob order with repeated identical entries preserved, each
entry being the field-mapping of the deserialized inner payload tagged with
`@type` equal to the inner type-name with EVERY occurrence of `.lq.`
removed (Python `replace`) — which coincides with stripping the leading
prefix whenever `.lq.` occurs only at the front of the name. -/
theorem unwrap_preserves_order_and_count (env : Env) (subs : List Blob)
    (hok : ∀ b ∈ subs, (decodeOneEntry env b).isSome) :
    decodeEntries env subs = .ok (subs.filterMap (decodeOneEntry env)) ∧
    (subs.filterMap (decodeOneEntry env)).length = subs.length := by
  induction subs with
  | nil => simp [decodeEntries]
  | cons b bs ih =>
    have hb := hok b (by simp)
    have ⟨ihEq, ihLen⟩ := ih (fun x hx => hok x (by simp [hx]))
    rcases hcat : env.catalog (pyReplace (env.parseWrapper b).name ".lq." "")
      with _ | f
    · exfalso
      simp [decodeOneEntry, hcat] at hb
    · constructor
      · simp only [decodeEntries, hcat, ihEq, List.filterMap_cons,
          decodeOneEntry]
      · simp [List.filterMap_cons, decodeOneEntry, hcat, ihLen]

/-- Witness for amended Claim C5 at a concrete input: the container
`[[10], [10]]` (the same sub-blob twice) decodes to two identical entries
tagged `ab`, in order, with the duplicate preserved. -/
theorem unwrap_preserves_order_and_count_witness :
    decodeEntries cEnv [[10], [10]] =
      .ok ([[10], [10]].filterMap (decodeOneEntry cEnv)) ∧
    ([[10], [10]].filterMap (decodeOneEntry cEnv)).length = 2 :=
  unwrap_preserves_order_and_count cEnv [[10], [10]] (by decide)

/-- Claim C10: in `--no-new-records` mode the run is exactly
`decode_records` with the global `memoized` still `None` (neither
`should_skip` nor `maybe_memoize` ever runs), so the
"file does not exist but memoized, skip" branch can never trigger: for any
record whose document file is absent, both the detail-fetch and the decode
iteration go on to open the missing file and raise `FileNotFoundError`
instead of skipping — even if a `--memoize` path was given. -/
theorem noNewRecords_memoized_stays_none (env : Env) (jsondir : String)
    (disk : Disk) :
    runNoNewRecords env jsondir disk =
      decode_records env none jsondir disk (listdir jsondir disk) ∧
    ∀ (d : Disk) (r : String),
      List.lookup (jsonPath jsondir r) d = none →
        detailFetchStep env none jsondir d r = (d, some .fileNotFound) ∧
        decodeStep env none jsondir d r = (d, some .fileNotFound) := by
  refine ⟨rfl, fun d r h => ⟨?_, ?_⟩⟩
  · simp [detailFetchStep, memoMember, h]
  · simp [decodeStep, memoMember, h]

/-- Witness for Claim C10 at a concrete input: with an empty disk, both
iterations for record `x` raise `FileNotFoundError` rather than skipping. -/
theorem noNewRecords_memoized_stays_none_witness :
    detailFetchStep cEnv none "o" [] "x" = ([], some .fileNotFound) ∧
    decodeStep cEnv none "o" [] "x" = ([], some .fileNotFound) :=
  (noNewRecords_memoized_stays_none cEnv "o" []).2 [] "x" rfl

/-- One fetch-loop iteration preserves the facts that `r` has not been
fetched and that the global `memoized`, if loaded, contains `r`: when the
ledger is configured and `r` is one of its stripped lines, `should_skip`
either finds `memoized` already loaded (still containing `r`) or loads it
(and then `r ∈ memoized`), so the iteration for `r` itself always takes the
skip branch, and an iteration for any other id can only grow `memoized` and
append that other id to `fetched`. -/
theorem fetchStep_inv (env : Env) (cfg : FetchCfg) (r r' : String)
    (st : FetchSt)
    (hc : cfg.memoConfigured = true)
    (hrl : r ∈ loadMemo cfg)
    (hm : st.memoized = none ∨ ∃ m, st.memoized = some m ∧ r ∈ m)
    (hf : r ∉ st.fetched) :
    ((fetchStep env cfg st r').memoized = none ∨
      ∃ m, (fetchStep env cfg st r').memoized = some m ∧ r ∈ m) ∧
    r ∉ (fetchStep env cfg st r').fetched := by
  rcases hst : st.memoized with _ | m0
  · by_cases h1 : r' ∈ loadMemo cfg
    · refine ⟨Or.inr ⟨loadMemo cfg, ?_, hrl⟩, ?_⟩ <;>
        simp [fetchStep, should_skip, hc, hst, h1, hf]
    · have hne : r ≠ r' := fun he => h1 (he ▸ hrl)
      by_cases h2 : (List.lookup (jsonPath cfg.jsondir r') st.disk).isSome
      · refine ⟨Or.inr ⟨loadMemo cfg, ?_, hrl⟩, ?_⟩ <;>
          simp [fetchStep, should_skip, hc, hst, h1, h2, hf]
      · refine ⟨Or.inr ⟨loadMemo cfg ++ [r'], ?_, ?_⟩, ?_⟩ <;>
          simp [fetchStep, should_skip, maybe_memoize, hc, hst, h1, h2, hf,
            hrl, hne]
  · have hrm : r ∈ m0 := by
      rcases hm with h | ⟨m, hm1, hm2⟩
      · rw [hst] at h
        exact absurd h (by simp)
      · rw [hst] at hm1
        injection hm1 with h
        rw [h]
        exact hm2
    by_cases h1 : r' ∈ m0
    · refine ⟨Or.inr ⟨m0, ?_, hrm⟩, ?_⟩ <;>
        simp [fetchStep, should_skip, hc, hst, h1, hf]
    · have hne : r ≠ r' := fun he => h1 (he ▸ hrm)
      by_cases h2 : (List.lookup (jsonPath cfg.jsondir r') st.disk).isSome
      · refine ⟨Or.inr ⟨m0, ?_, hrm⟩, ?_⟩ <;>
          simp [fetchStep, should_skip, hc, hst, h1, h2, hf]
      · refine ⟨Or.inr ⟨m0 ++ [r'], ?_, ?_⟩, ?_⟩ <;>
          simp [fetchStep, should_skip, maybe_memoize, hc, hst, h1, h2, hf,
            hrm, hne]

/-- The fetch loop never fetches `r` when the configured ledger's stripped
lines contain `r`, whatever the remaining record list and state. -/
theorem fetchLoop_inv (env : Env) (cfg : FetchCfg) (r : String)
    (hc : cfg.memoConfigured = true) (hrl : r ∈ loadMemo cfg)
    (rs : List String) :
    ∀ st : FetchSt,
      (st.memoized = none ∨ ∃ m, st.memoized = some m ∧ r ∈ m) →
      r ∉ st.fetched → r ∉ (fetchLoop env cfg st rs).fetched := by
  induction rs with
  | nil =>
    intro st _ hf
    simpa [fetchLoop] using hf
  | cons r' rs ih =>
    intro st hm hf
    have h := fetchStep_inv env cfg r r' st hc hrl hm hf
    exact ih _ h.1 h.2

/-- Claim C1: if a memoization file path was configured and `r` appears,
whitespace-stripped, as a line of that file, then the per-record loop of
`main`, started from the process-initial state (global `memoized = None`,
nothing fetched, the ledger file untouched, any disk — in particular one
holding no document for `r`), never calls `fetchGameRecord` for `r`. -/
theorem memoized_id_never_fetched (env : Env) (cfg : FetchCfg)
    (ls : List String) (r : String) (rs : List String) (disk : Disk)
    (hc : cfg.memoConfigured = true)
    (hfl : cfg.memoFileLines = some ls)
    (hr : r ∈ ls.map pyStrip) :
    r ∉ (fetchLoop env cfg ⟨disk, none, [], []⟩ rs).fetched := by
  have hrl : r ∈ loadMemo cfg := by
    simp only [loadMemo, hfl]
    exact hr
  exact fetchLoop_inv env cfg r hc hrl rs ⟨disk, none, [], []⟩
    (Or.inl rfl) (by simp)

/-- Witness for Claim C1 at a concrete input: the ledger file holds the
single line `" r \n"`, which strips to `r`; running the loop over
`["r", "x"]` from an empty disk never fetches `r`. -/
theorem memoized_id_never_fetched_witness :
    "r" ∉ (fetchLoop cEnv ⟨"o", true, some [" r \n"]⟩
      ⟨[], none, [], []⟩ ["r", "x"]).fetched :=
  memoized_id_never_fetched cEnv ⟨"o", true, some [" r \n"]⟩ [" r \n"]
    "r" ["r", "x"] [] rfl rfl (by decide)

/-- Claim C4: the pagination loop starts at offset 1 (witness below) and
advances the offset by `step` after each full page; if pages
`1, ..., K-1` each return at least `step` entries and page `K` (requested
at offset `current + (K-1)*step`) returns fewer than `step`, then — given
enough fuel for the unbounded `while True` — exactly `K` pages are
requested and the collected ids are exactly the concatenation of the `K`
pages in request order (so the loop introduces no duplication and no
reordering of its own). -/
theorem pagination_exactly_K_pages (L : Nat → Nat → List String)
    (step K current fuel : Nat)
    (hK : 0 < K) (hfuel : K ≤ fuel)
    (hlong : ∀ j, j + 1 < K → ¬ (L (current + j * step) step).length < step)
    (hshort : (L (current + (K - 1) * step) step).length < step) :
    fetchRecordList L step fuel current =
      (((List.range K).map (fun j => L (current + j * step) step)).flatten,
        K) := by
  induction K generalizing current fuel with
  | zero => exact absurd hK (by omega)
  | succ k ih =>
    obtain ⟨f, rfl⟩ : ∃ f, fuel = f + 1 := ⟨fuel - 1, by omega⟩
    by_cases h : (L current step).length < step
    · have hk0 : k = 0 := by
        by_contra hne
        exact (hlong 0 (by omega)) (by simpa using h)
      subst hk0
      simp [fetchRecordList, h, List.range_succ]
    · have hk : 0 < k := by
        rcases Nat.eq_zero_or_pos k with h0 | h0
        · subst h0
          exact absurd (by simpa using hshort) h
        · exact h0
      have hlong' : ∀ j, j + 1 < k →
          ¬ (L (current + step + j * step) step).length < step := by
        intro j hj
        have hj1 := hlong (j + 1) (by omega)
        have harith : current + (j + 1) * step = current + step + j * step :=
          by ring
        rwa [harith] at hj1
      have hshort' :
          (L (current + step + (k - 1) * step) step).length < step := by
        obtain ⟨k1, rfl⟩ : ∃ k1, k = k1 + 1 := ⟨k - 1, by omega⟩
        have harith : current + (k1 + 1 + 1 - 1) * step =
            current + step + (k1 + 1 - 1) * step := by
          simp only [Nat.add_sub_cancel]
          ring
        rwa [harith] at hshort
      have hrec := ih (current + step) f hk (by omega) hlong' hshort'
      have hmap : ((List.range k).map
            (fun j => L (current + step + j * step) step)) =
          (List.range k).map
            ((fun j => L (current + j * step) step) ∘ Nat.succ) := by
        apply List.map_congr_left
        intro j _
        simp only [Function.comp_apply, Nat.succ_eq_add_one]
        congr 1
        ring
      simp only [fetchRecordList, if_neg h, hrec]
      rw [List.range_succ_eq_map, List.map_cons, List.map_map,
        List.flatten_cons, ← hmap]
      simp

/-- `listRecords` for the scenario of Claim C4: offset 1 returns 30 ids,
offset 31 returns 12 ids. -/
def cListPages : Nat → Nat → List String := fun start _ =>
  if start = 1 then (List.range 30).map toString
  else if start = 31 then ((List.range' 30 12).map toString)
  else []

/-- Witness for Claim C4, the scenario from the spec: page 1 (offset 1)
returns 30 ids and page 2 (offset 31) returns 12, so the loop stops after
exactly 2 pages with all 42 distinct ids collected in order. -/
theorem pagination_exactly_K_pages_witness :
    fetchRecordList cListPages 30 2 1 =
      ((List.range 42).map toString, 2) ∧
    ((List.range 42).map toString).Nodup := by
  constructor
  · have h := pagination_exactly_K_pages cListPages 30 2 1 2 (by omega)
      (by omega)
      (fun j hj => by
        have hj0 : j = 0 := by omega
        subst hj0
        simp [cListPages])
      (by simp [cListPages])
    rw [h]
    decide
  · decide

end PyMajSoul
